import Mathlib

/-!
Verification of the JNI method/class cache module
(exonum-java-binding, core/rust/src/utils/jni_cache.rs).

The module caches JNI method identifiers and global class references in
process-wide static slots.  Population happens exactly once, driven by the
load hook JNI_OnLoad through a one-time-initialization primitive
(parking_lot Once).  Resolution failures panic; accessors are gated on the
guard being in the done state.

This file gives a shallow embedding of that code:
  * the JNI environment is a record of lookup functions,
  * panics are modelled by the error case of Except String,
  * the mutable statics become an explicit Cache record,
  * the straight-line body of cache_methods becomes a fold over the list
    of slot assignments in source order,
  * the Once protocol is modelled by a labelled transition system over
    system states with any number of threads.
-/

instance {ε α : Type} [DecidableEq ε] [DecidableEq α] : DecidableEq (Except ε α) := fun x y =>
  match x, y with
  | .ok a, .ok b => decidable_of_iff (a = b) (by simp)
  | .error a, .error b => decidable_of_iff (a = b) (by simp)
  | .ok _, .error _ => isFalse (by simp)
  | .error _, .ok _ => isFalse (by simp)

/-- Opaque JNI method identifier token (jni JMethodID). -/
structure JMethodID where
  id : Nat
deriving DecidableEq, Repr

/-- Opaque call-scoped class object reference (jni JClass). -/
structure JClass where
  id : Nat
deriving DecidableEq, Repr

/-- Opaque durable (global) reference token (jni GlobalRef). -/
structure GlobalRef where
  id : Nat
deriving DecidableEq, Repr

/-- Model of the JNI environment: the lookup facilities of the host
runtime that the cache module consults.  A none result models the Err
case of the corresponding jni crate call. -/
structure JNIEnv where
  lookupMethod : String → String → String → Option JMethodID
  findClass : String → Option JClass
  newGlobalRef : JClass → Option GlobalRef

/-- Model of the JavaVM handle passed to JNI_OnLoad; get_env may fail
(Err), modelled as none. -/
structure JavaVM where
  get_env : Option JNIEnv

/-- Invalid JNI version constant, signifying JNI_OnLoad failure
(source line 34). -/
def INVALID_JNI_VERSION : Int := 0

/-- The supported JNI version reported on success (jni sys constant). -/
def JNI_VERSION_1_8 : Int := 0x00010008

/-- Fully qualified name of the ServiceRuntimeAdapter class
(source line 35). -/
def SERVICE_RUNTIME_ADAPTER_CLASS : String :=
  ("com/exonum/binding/core/runtime/ServiceRuntimeAdapter")

/-- Embedding of get_method_id (source lines 174-186): asks the host
runtime for a method id; on lookup failure it panics (error case) with
the formatted message; on success it always returns some. -/
def get_method_id (env : JNIEnv) (cl nm sg : String) :
    Except String (Option JMethodID) :=
  match env.lookupMethod cl nm sg with
  | some mid => .ok (some mid)
  | none =>
      .error (("Method ") ++ nm ++ (" with signature ") ++ sg ++
        (" of class ") ++ cl ++ (" not found"))

/-- Embedding of get_class (source lines 191-196): finds the class
(panicking with the formatted message if absent), then converts it to a
global reference via new_global_ref, unwrapping (panic on Err).  On
success it always returns some. -/
def get_class (env : JNIEnv) (cl : String) : Except String (Option GlobalRef) :=
  match env.findClass cl with
  | none => .error (("Class ") ++ cl ++ (" not found"))
  | some c =>
      match env.newGlobalRef c with
      | none => .error ("called unwrap on an Err value")
      | some g => .ok (some g)

/-- The sixteen method-id static slots (source lines 39-55).  The slot
for the static RUNTIME_ADAPTER_INITIALIZE is named with an ID suffix
here. -/
inductive MSlot
  | OBJECT_GET_CLASS
  | CLASS_GET_NAME
  | THROWABLE_GET_MESSAGE
  | THROWABLE_GET_CAUSE
  | EXECUTION_EXCEPTION_GET_ERROR_CODE
  | RUNTIME_ADAPTER_INITIALIZE_ID
  | RUNTIME_ADAPTER_DEPLOY_ARTIFACT
  | RUNTIME_ADAPTER_IS_ARTIFACT_DEPLOYED
  | RUNTIME_ADAPTER_INITIATE_ADDING_SERVICE
  | RUNTIME_ADAPTER_INITIATE_RESUMING_SERICE
  | RUNTIME_ADAPTER_UPDATE_SERVICE_STATUS
  | RUNTIME_ADAPTER_EXECUTE_TX
  | RUNTIME_ADAPTER_BEFORE_TRANSACTIONS
  | RUNTIME_ADAPTER_AFTER_TRANSACTIONS
  | RUNTIME_ADAPTER_AFTER_COMMIT
  | RUNTIME_ADAPTER_SHUTDOWN
deriving DecidableEq, Repr, Fintype

/-- The five class-reference static slots (source lines 57-61). -/
inductive CSlot
  | JAVA_LANG_ERROR
  | JAVA_LANG_RUNTIME_EXCEPTION
  | JAVA_LANG_ILLEGAL_ARGUMENT_EXCEPTION
  | EXECUTION_EXCEPTION
  | UNEXPECTED_EXECUTION_EXCEPTION
deriving DecidableEq, Repr, Fintype

/-- The Symbol Table: the collection of mutable static slots.  Method
slots hold Option JMethodID, class slots hold Option GlobalRef, exactly
as the statics do in the source. -/
structure Cache where
  mids : MSlot → Option JMethodID
  refs : CSlot → Option GlobalRef

instance : DecidableEq Cache := fun a b =>
  decidable_of_iff (a.mids = b.mids ∧ a.refs = b.refs)
    (by cases a; cases b; simp)

/-- All static slots start out as None (source lines 39-61). -/
def initialCache : Cache :=
  { mids := fun _ => none, refs := fun _ => none }

/-- One assignment statement of cache_methods: a target slot together
with the descriptor resolved for it. -/
inductive Step
  | m (slot : MSlot) (cl nm sg : String)
  | c (slot : CSlot) (cl : String)
deriving DecidableEq, Repr

/-- The body of cache_methods (source lines 83-168): the slot
assignments in source order. -/
def cacheSteps : List Step :=
  [ .m .OBJECT_GET_CLASS ("java/lang/Object") ("getClass") ("()Ljava/lang/Class;"),
    .m .CLASS_GET_NAME ("java/lang/Class") ("getName") ("()Ljava/lang/String;"),
    .m .THROWABLE_GET_MESSAGE ("java/lang/Throwable") ("getMessage") ("()Ljava/lang/String;"),
    .m .THROWABLE_GET_CAUSE ("java/lang/Throwable") ("getCause") ("()Ljava/lang/Throwable;"),
    .m .EXECUTION_EXCEPTION_GET_ERROR_CODE
      ("com/exonum/binding/core/service/ExecutionException") ("getErrorCode") ("()B"),
    .m .RUNTIME_ADAPTER_INITIALIZE_ID SERVICE_RUNTIME_ADAPTER_CLASS ("initialize") ("(J)V"),
    .m .RUNTIME_ADAPTER_DEPLOY_ARTIFACT SERVICE_RUNTIME_ADAPTER_CLASS
      ("deployArtifact") ("([B[B)V"),
    .m .RUNTIME_ADAPTER_IS_ARTIFACT_DEPLOYED SERVICE_RUNTIME_ADAPTER_CLASS
      ("isArtifactDeployed") ("([B)Z"),
    .m .RUNTIME_ADAPTER_INITIATE_ADDING_SERVICE SERVICE_RUNTIME_ADAPTER_CLASS
      ("initiateAddingService") ("(J[B[B)V"),
    .m .RUNTIME_ADAPTER_INITIATE_RESUMING_SERICE SERVICE_RUNTIME_ADAPTER_CLASS
      ("initiateResumingService") ("(J[B[B)V"),
    .m .RUNTIME_ADAPTER_UPDATE_SERVICE_STATUS SERVICE_RUNTIME_ADAPTER_CLASS
      ("updateServiceStatus") ("([B[B)V"),
    .m .RUNTIME_ADAPTER_EXECUTE_TX SERVICE_RUNTIME_ADAPTER_CLASS
      ("executeTransaction") ("(ILjava/lang/String;I[BJI[B[B)V"),
    .m .RUNTIME_ADAPTER_BEFORE_TRANSACTIONS SERVICE_RUNTIME_ADAPTER_CLASS
      ("beforeTransactions") ("(IJ)V"),
    .m .RUNTIME_ADAPTER_AFTER_TRANSACTIONS SERVICE_RUNTIME_ADAPTER_CLASS
      ("afterTransactions") ("(IJ)V"),
    .m .RUNTIME_ADAPTER_AFTER_COMMIT SERVICE_RUNTIME_ADAPTER_CLASS
      ("afterCommit") ("(JIJ)V"),
    .m .RUNTIME_ADAPTER_SHUTDOWN SERVICE_RUNTIME_ADAPTER_CLASS ("shutdown") ("()V"),
    .c .JAVA_LANG_ERROR ("java/lang/Error"),
    .c .JAVA_LANG_RUNTIME_EXCEPTION ("java/lang/RuntimeException"),
    .c .JAVA_LANG_ILLEGAL_ARGUMENT_EXCEPTION ("java/lang/IllegalArgumentException"),
    .c .EXECUTION_EXCEPTION ("com/exonum/binding/core/service/ExecutionException"),
    .c .UNEXPECTED_EXECUTION_EXCEPTION
      ("com/exonum/binding/core/runtime/UnexpectedExecutionException") ]

/-- Execute a single assignment of cache_methods: resolve the
descriptor and store the produced Option value in the slot; a panic in
the resolver leaves the slot untouched and propagates. -/
def runStep (env : JNIEnv) (st : Step) (c : Cache) : Cache × Except String Unit :=
  match st with
  | .m slot cl nm sg =>
      match get_method_id env cl nm sg with
      | .ok v => ({ c with mids := fun s => if s = slot then v else c.mids s }, .ok ())
      | .error e => (c, .error e)
  | .c slot cl =>
      match get_class env cl with
      | .ok v => ({ c with refs := fun s => if s = slot then v else c.refs s }, .ok ())
      | .error e => (c, .error e)

/-- Execute a list of assignments in order; a panic aborts the sequence
with the partial cache (statics written so far keep their values). -/
def runSteps (env : JNIEnv) : List Step → Cache → Cache × Except String Unit
  | [], c => (c, .ok ())
  | st :: rest, c =>
      match runStep env st c with
      | (c1, .ok _) => runSteps env rest c1
      | (c1, .error e) => (c1, .error e)

/-- Embedding of cache_methods (source lines 83-169): run every slot
assignment in source order. -/
def cache_methods (env : JNIEnv) (c : Cache) : Cache × Except String Unit :=
  runSteps env cacheSteps c

/-- States of the parking_lot Once primitive (static INIT, source
line 37). -/
inductive OnceState
  | new
  | inProgress
  | poisoned
  | done
deriving DecidableEq, Repr

/-- The done check of OnceState (parking_lot OnceState done method). -/
def OnceState.isDone : OnceState → Bool
  | .done => true
  | _ => false

/-- The process-wide mutable state of the module: the Once guard plus
the Symbol Table. -/
structure ProcState where
  once : OnceState
  cache : Cache
deriving DecidableEq

/-- Embedding of init_cache (source lines 78-80) as a single sequential
call: call_once runs cache_methods when the Once is new (transitioning
to done on success and to poisoned on panic, which propagates), is a
no-op when done, and panics when poisoned.  A call while another call
is in progress blocks in the source; re-entrant invocation from the
same thread is modelled as a fault here (no claim exercises it). -/
def init_cache (env : JNIEnv) (s : ProcState) : ProcState × Except String Unit :=
  match s.once with
  | .new =>
      match cache_methods env s.cache with
      | (c, .ok _) => (⟨.done, c⟩, .ok ())
      | (c, .error e) => (⟨.poisoned, c⟩, .error e)
  | .done => (s, .ok ())
  | .poisoned => (s, .error ("Once instance has previously been poisoned"))
  | .inProgress => (s, .error ("Once re-entered"))

/-- Embedding of JNI_OnLoad (source lines 67-75).  Note the order in
the source: vm.get_env().expect(..) runs before catch_unwind, so a
panic raised there is NOT caught; only panics raised inside the closure
(init_cache) are converted to INVALID_JNI_VERSION by unwrap_or. -/
def JNI_OnLoad (vm : JavaVM) (s : ProcState) : ProcState × Except String Int :=
  match vm.get_env with
  | none => (s, .error ("Cannot get reference to the JNIEnv"))
  | some env =>
      match init_cache env s with
      | (s1, .ok _) => (s1, .ok JNI_VERSION_1_8)
      | (s1, .error _) => (s1, .ok INVALID_JNI_VERSION)

/-- Embedding of check_cache_initialized (source lines 198-202). -/
def check_cache_initialized (s : ProcState) : Except String Unit :=
  if s.once.isDone then .ok () else .error ("JNI cache is not initialized")

/-- Read a method slot the way every accessor does: guard check, then
unchecked unwrap of the static. -/
def readMid (s : ProcState) (slot : MSlot) : Except String JMethodID :=
  match check_cache_initialized s with
  | .error e => .error e
  | .ok _ =>
      match s.cache.mids slot with
      | some m => .ok m
      | none => .error ("called unwrap on a None value")

/-- Read a class slot the way every classes_refs accessor does: guard
check, then clone and unchecked unwrap of the static. -/
def readRef (s : ProcState) (slot : CSlot) : Except String GlobalRef :=
  match check_cache_initialized s with
  | .error e => .error e
  | .ok _ =>
      match s.cache.refs slot with
      | some g => .ok g
      | none => .error ("called unwrap on a None value")

/-- runtime_adapter initialize_id (source lines 209-212). -/
def initialize_id (s : ProcState) : Except String JMethodID :=
  readMid s .RUNTIME_ADAPTER_INITIALIZE_ID

/-- runtime_adapter deploy_artifact_id (source lines 215-218). -/
def deploy_artifact_id (s : ProcState) : Except String JMethodID :=
  readMid s .RUNTIME_ADAPTER_DEPLOY_ARTIFACT

/-- runtime_adapter is_artifact_deployed_id (source lines 221-224). -/
def is_artifact_deployed_id (s : ProcState) : Except String JMethodID :=
  readMid s .RUNTIME_ADAPTER_IS_ARTIFACT_DEPLOYED

/-- runtime_adapter initiate_adding_service_id (source lines 227-230). -/
def initiate_adding_service_id (s : ProcState) : Except String JMethodID :=
  readMid s .RUNTIME_ADAPTER_INITIATE_ADDING_SERVICE

/-- runtime_adapter initiate_resuming_service_id (source lines 233-236). -/
def initiate_resuming_service_id (s : ProcState) : Except String JMethodID :=
  readMid s .RUNTIME_ADAPTER_INITIATE_RESUMING_SERICE

/-- runtime_adapter update_service_status_id (source lines 239-242). -/
def update_service_status_id (s : ProcState) : Except String JMethodID :=
  readMid s .RUNTIME_ADAPTER_UPDATE_SERVICE_STATUS

/-- runtime_adapter execute_tx_id (source lines 245-248). -/
def execute_tx_id (s : ProcState) : Except String JMethodID :=
  readMid s .RUNTIME_ADAPTER_EXECUTE_TX

/-- runtime_adapter before_transactions_id (source lines 251-254). -/
def before_transactions_id (s : ProcState) : Except String JMethodID :=
  readMid s .RUNTIME_ADAPTER_BEFORE_TRANSACTIONS

/-- runtime_adapter after_transactions_id (source lines 257-260). -/
def after_transactions_id (s : ProcState) : Except String JMethodID :=
  readMid s .RUNTIME_ADAPTER_AFTER_TRANSACTIONS

/-- runtime_adapter after_commit_id (source lines 263-266). -/
def after_commit_id (s : ProcState) : Except String JMethodID :=
  readMid s .RUNTIME_ADAPTER_AFTER_COMMIT

/-- runtime_adapter shutdown_id (source lines 269-272). -/
def shutdown_id (s : ProcState) : Except String JMethodID :=
  readMid s .RUNTIME_ADAPTER_SHUTDOWN

/-- object get_class_id (source lines 280-283). -/
def get_class_id (s : ProcState) : Except String JMethodID :=
  readMid s .OBJECT_GET_CLASS

/-- class get_name_id (source lines 291-294). -/
def get_name_id (s : ProcState) : Except String JMethodID :=
  readMid s .CLASS_GET_NAME

/-- throwable get_message_id (source lines 302-305). -/
def get_message_id (s : ProcState) : Except String JMethodID :=
  readMid s .THROWABLE_GET_MESSAGE

/-- throwable get_cause_id (source lines 308-311). -/
def get_cause_id (s : ProcState) : Except String JMethodID :=
  readMid s .THROWABLE_GET_CAUSE

/-- execution_exception get_error_code_id (source lines 319-322). -/
def get_error_code_id (s : ProcState) : Except String JMethodID :=
  readMid s .EXECUTION_EXCEPTION_GET_ERROR_CODE

/-- classes_refs java_lang_error (source lines 330-333). -/
def java_lang_error (s : ProcState) : Except String GlobalRef :=
  readRef s .JAVA_LANG_ERROR

/-- classes_refs java_lang_runtime_exception (source lines 336-339). -/
def java_lang_runtime_exception (s : ProcState) : Except String GlobalRef :=
  readRef s .JAVA_LANG_RUNTIME_EXCEPTION

/-- classes_refs java_lang_illegal_argument_exception (source
lines 342-345). -/
def java_lang_illegal_argument_exception (s : ProcState) : Except String GlobalRef :=
  readRef s .JAVA_LANG_ILLEGAL_ARGUMENT_EXCEPTION

/-- classes_refs execution_exception (source lines 348-351). -/
def execution_exception (s : ProcState) : Except String GlobalRef :=
  readRef s .EXECUTION_EXCEPTION

/-- classes_refs unexpected_execution_exception (source lines 354-357). -/
def unexpected_execution_exception (s : ProcState) : Except String GlobalRef :=
  readRef s .UNEXPECTED_EXECUTION_EXCEPTION

/-- The panic raised by a single assignment of cache_methods, if any:
none when the resolution succeeds. -/
def stepErr (env : JNIEnv) : Step → Option String
  | .m _ cl nm sg =>
      match get_method_id env cl nm sg with
      | .error e => some e
      | .ok _ => none
  | .c _ cl =>
      match get_class env cl with
      | .error e => some e
      | .ok _ => none

/-- Whether a single assignment of cache_methods succeeds. -/
def stepOkb (env : JNIEnv) (st : Step) : Bool := (stepErr env st).isNone

/-- The panic outcome of a whole assignment sequence, independent of
the cache it starts from. -/
def runStepsExc (env : JNIEnv) : List Step → Except String Unit
  | [] => .ok ()
  | st :: rest =>
      match stepErr env st with
      | some e => .error e
      | none => runStepsExc env rest

/-- Whether an assignment targets the given method slot. -/
def writesM (ms : MSlot) : Step → Bool
  | .m sl _ _ _ => decide (sl = ms)
  | .c _ _ => false

/-- Whether an assignment targets the given class slot. -/
def writesC (cs : CSlot) : Step → Bool
  | .c sl _ => decide (sl = cs)
  | .m _ _ _ _ => false

/-- The Symbol Table is fully populated: every slot holds a value. -/
def populatedC (c : Cache) : Prop :=
  (∀ ms, (c.mids ms).isSome = true) ∧ (∀ cs, (c.refs cs).isSome = true)

instance (c : Cache) : Decidable (populatedC c) := by
  unfold populatedC; infer_instance

/-- All twenty-one accessors of the module fail with the guard panic
message. -/
def accessorsGated (s : ProcState) : Prop :=
  initialize_id s = .error ("JNI cache is not initialized") ∧
  deploy_artifact_id s = .error ("JNI cache is not initialized") ∧
  is_artifact_deployed_id s = .error ("JNI cache is not initialized") ∧
  initiate_adding_service_id s = .error ("JNI cache is not initialized") ∧
  initiate_resuming_service_id s = .error ("JNI cache is not initialized") ∧
  update_service_status_id s = .error ("JNI cache is not initialized") ∧
  execute_tx_id s = .error ("JNI cache is not initialized") ∧
  before_transactions_id s = .error ("JNI cache is not initialized") ∧
  after_transactions_id s = .error ("JNI cache is not initialized") ∧
  after_commit_id s = .error ("JNI cache is not initialized") ∧
  shutdown_id s = .error ("JNI cache is not initialized") ∧
  get_class_id s = .error ("JNI cache is not initialized") ∧
  get_name_id s = .error ("JNI cache is not initialized") ∧
  get_message_id s = .error ("JNI cache is not initialized") ∧
  get_cause_id s = .error ("JNI cache is not initialized") ∧
  get_error_code_id s = .error ("JNI cache is not initialized") ∧
  java_lang_error s = .error ("JNI cache is not initialized") ∧
  java_lang_runtime_exception s = .error ("JNI cache is not initialized") ∧
  java_lang_illegal_argument_exception s = .error ("JNI cache is not initialized") ∧
  execution_exception s = .error ("JNI cache is not initialized") ∧
  unexpected_execution_exception s = .error ("JNI cache is not initialized")

/-- All twenty-one accessors of the module return a value. -/
def accessorsOk (s : ProcState) : Prop :=
  (∃ v, initialize_id s = .ok v) ∧
  (∃ v, deploy_artifact_id s = .ok v) ∧
  (∃ v, is_artifact_deployed_id s = .ok v) ∧
  (∃ v, initiate_adding_service_id s = .ok v) ∧
  (∃ v, initiate_resuming_service_id s = .ok v) ∧
  (∃ v, update_service_status_id s = .ok v) ∧
  (∃ v, execute_tx_id s = .ok v) ∧
  (∃ v, before_transactions_id s = .ok v) ∧
  (∃ v, after_transactions_id s = .ok v) ∧
  (∃ v, after_commit_id s = .ok v) ∧
  (∃ v, shutdown_id s = .ok v) ∧
  (∃ v, get_class_id s = .ok v) ∧
  (∃ v, get_name_id s = .ok v) ∧
  (∃ v, get_message_id s = .ok v) ∧
  (∃ v, get_cause_id s = .ok v) ∧
  (∃ v, get_error_code_id s = .ok v) ∧
  (∃ v, java_lang_error s = .ok v) ∧
  (∃ v, java_lang_runtime_exception s = .ok v) ∧
  (∃ v, java_lang_illegal_argument_exception s = .ok v) ∧
  (∃ v, execution_exception s = .ok v) ∧
  (∃ v, unexpected_execution_exception s = .ok v)

/-- Thread-local state of an init_cache caller in the concurrent
model: before entering call_once; holding the Once with the listed
assignments of cache_methods still to execute; returned normally; or
unwinding from a panic.  A thread in start whose Once is in progress
has no enabled transition: this models call_once blocking it until the
in-flight initialization finishes. -/
inductive TState
  | start
  | running (rest : List Step)
  | finished
  | panicked
deriving DecidableEq, Repr

/-- Global state of the concurrent model: the Once guard, the Symbol
Table, the states of the n init_cache callers, and the number of times
the call_once closure (cache_methods) has been entered. -/
structure Sys (n : Nat) where
  once : OnceState
  cache : Cache
  threads : Fin n → TState
  runs : Nat

instance {n : Nat} : DecidableEq (Sys n) := fun a b =>
  decidable_of_iff (a.once = b.once ∧ a.cache = b.cache ∧ a.threads = b.threads ∧
      a.runs = b.runs)
    (by cases a; cases b; simp)

/-- Initial state: Once new, all slots empty, all callers about to
call init_cache. -/
def initialSys (n : Nat) : Sys n :=
  { once := .new, cache := initialCache, threads := fun _ => .start, runs := 0 }

/-- One transition of caller i in the concurrent model of init_cache
(INIT.call_once with the cache_methods body).
  * acquire: a caller finding the Once new enters the closure,
    moving the Once to in-progress (one more closure entry).
  * work: the caller holding the Once executes the next assignment
    when its resolution succeeds.
  * fail: the caller holding the Once hits a failing resolution: the
    panic unwinds, poisoning the Once and keeping the partial table.
  * complete: the caller holding the Once finishes the last
    assignment: the Once becomes done with a release barrier.
  * fastPath: a caller finding the Once done returns at once without
    entering the closure.
  * poisonedPanic: a caller finding the Once poisoned panics
    (parking_lot behaviour).
A caller in start finding the Once in progress has no transition: it
blocks until the in-flight initialization finishes. -/
inductive SysStep (env : JNIEnv) {n : Nat} (i : Fin n) : Sys n → Sys n → Prop
  | acquire (s s' : Sys n)
      (hi : s.threads i = .start) (ho : s.once = .new)
      (ho' : s'.once = .inProgress) (hc : s'.cache = s.cache)
      (ht : ∀ j, s'.threads j = if j = i then .running cacheSteps else s.threads j)
      (hr : s'.runs = s.runs + 1) : SysStep env i s s'
  | work (s s' : Sys n) (st : Step) (rest : List Step)
      (hi : s.threads i = .running (st :: rest))
      (hok : (runStep env st s.cache).2 = .ok ())
      (ho' : s'.once = s.once)
      (hc : s'.cache = (runStep env st s.cache).1)
      (ht : ∀ j, s'.threads j = if j = i then .running rest else s.threads j)
      (hr : s'.runs = s.runs) : SysStep env i s s'
  | fail (s s' : Sys n) (st : Step) (rest : List Step) (e : String)
      (hi : s.threads i = .running (st :: rest))
      (herr : (runStep env st s.cache).2 = .error e)
      (ho' : s'.once = .poisoned)
      (hc : s'.cache = (runStep env st s.cache).1)
      (ht : ∀ j, s'.threads j = if j = i then .panicked else s.threads j)
      (hr : s'.runs = s.runs) : SysStep env i s s'
  | complete (s s' : Sys n)
      (hi : s.threads i = .running [])
      (ho' : s'.once = .done)
      (hc : s'.cache = s.cache)
      (ht : ∀ j, s'.threads j = if j = i then .finished else s.threads j)
      (hr : s'.runs = s.runs) : SysStep env i s s'
  | fastPath (s s' : Sys n)
      (hi : s.threads i = .start) (ho : s.once = .done)
      (ho' : s'.once = s.once) (hc : s'.cache = s.cache)
      (ht : ∀ j, s'.threads j = if j = i then .finished else s.threads j)
      (hr : s'.runs = s.runs) : SysStep env i s s'
  | poisonedPanic (s s' : Sys n)
      (hi : s.threads i = .start) (ho : s.once = .poisoned)
      (ho' : s'.once = s.once) (hc : s'.cache = s.cache)
      (ht : ∀ j, s'.threads j = if j = i then .panicked else s.threads j)
      (hr : s'.runs = s.runs) : SysStep env i s s'

/-- Reachability of a global state by any interleaving of caller
transitions from the initial state. -/
inductive SysReach (env : JNIEnv) {n : Nat} : Sys n → Prop
  | init : SysReach env (initialSys n)
  | step (i : Fin n) (s s' : Sys n) (h : SysReach env s) (hs : SysStep env i s s') :
      SysReach env s'

/-- No caller currently holds the Once. -/
def noRunner {n : Nat} (s : Sys n) : Prop :=
  ∀ i rest, s.threads i ≠ TState.running rest

/-- Inductive invariant of the concurrent model, keyed on the Once
state:
  * new: nothing has happened yet;
  * in progress: the closure has been entered exactly once, one unique
    caller holds the Once part-way through the assignment list with the
    cache holding exactly the successful prefix, and no caller has
    returned yet;
  * done: the closure ran exactly once and the cache is exactly the
    result of the full successful assignment sequence;
  * poisoned: no caller holds the Once and no caller ever returned
    normally. -/
def SysInv (env : JNIEnv) {n : Nat} (s : Sys n) : Prop :=
  (s.once = .new → s.cache = initialCache ∧ s.runs = 0 ∧ ∀ i, s.threads i = .start) ∧
  (s.once = .inProgress → s.runs = 1 ∧
    ∃ i, (∃ rest pre, s.threads i = .running rest ∧ pre ++ rest = cacheSteps ∧
            runSteps env pre initialCache = (s.cache, .ok ())) ∧
      (∀ j, j ≠ i → ∀ rest, s.threads j ≠ .running rest) ∧
      (∀ j, s.threads j ≠ .finished)) ∧
  (s.once = .done → s.runs = 1 ∧ runSteps env cacheSteps initialCache = (s.cache, .ok ()) ∧
      noRunner s) ∧
  (s.once = .poisoned → noRunner s ∧ ∀ j, s.threads j ≠ .finished)

/-- Projection of a global state of the concurrent model to the state
the accessors read (the Once guard and the Symbol Table). -/
def toProc {n : Nat} (s : Sys n) : ProcState := ⟨s.once, s.cache⟩

/-- A resolver call of cache_methods as the spec names it: a method
descriptor (owning type, name, signature) or a class name. -/
inductive Descr
  | method (cl nm sg : String)
  | classRef (cl : String)
deriving DecidableEq, Repr

/-- The descriptor resolved by an assignment. -/
def Step.descr : Step → Descr
  | .m _ cl nm sg => .method cl nm sg
  | .c _ cl => .classRef cl

/-- The resolution order stated by the spec: Object.getClass first,
then Class.getName, Throwable.getMessage, Throwable.getCause,
ExecutionException.getErrorCode, the eleven ServiceRuntimeAdapter
methods, then the five class references last. -/
def claimedResolutionOrder : List Descr :=
  [ .method ("java/lang/Object") ("getClass") ("()Ljava/lang/Class;"),
    .method ("java/lang/Class") ("getName") ("()Ljava/lang/String;"),
    .method ("java/lang/Throwable") ("getMessage") ("()Ljava/lang/String;"),
    .method ("java/lang/Throwable") ("getCause") ("()Ljava/lang/Throwable;"),
    .method ("com/exonum/binding/core/service/ExecutionException") ("getErrorCode") ("()B"),
    .method SERVICE_RUNTIME_ADAPTER_CLASS ("initialize") ("(J)V"),
    .method SERVICE_RUNTIME_ADAPTER_CLASS ("deployArtifact") ("([B[B)V"),
    .method SERVICE_RUNTIME_ADAPTER_CLASS ("isArtifactDeployed") ("([B)Z"),
    .method SERVICE_RUNTIME_ADAPTER_CLASS ("initiateAddingService") ("(J[B[B)V"),
    .method SERVICE_RUNTIME_ADAPTER_CLASS ("initiateResumingService") ("(J[B[B)V"),
    .method SERVICE_RUNTIME_ADAPTER_CLASS ("updateServiceStatus") ("([B[B)V"),
    .method SERVICE_RUNTIME_ADAPTER_CLASS ("executeTransaction") ("(ILjava/lang/String;I[BJI[B[B)V"),
    .method SERVICE_RUNTIME_ADAPTER_CLASS ("beforeTransactions") ("(IJ)V"),
    .method SERVICE_RUNTIME_ADAPTER_CLASS ("afterTransactions") ("(IJ)V"),
    .method SERVICE_RUNTIME_ADAPTER_CLASS ("afterCommit") ("(JIJ)V"),
    .method SERVICE_RUNTIME_ADAPTER_CLASS ("shutdown") ("()V"),
    .classRef ("java/lang/Error"),
    .classRef ("java/lang/RuntimeException"),
    .classRef ("java/lang/IllegalArgumentException"),
    .classRef ("com/exonum/binding/core/service/ExecutionException"),
    .classRef ("com/exonum/binding/core/runtime/UnexpectedExecutionException") ]

/-- A concrete host runtime in which every lookup succeeds. -/
def envA : JNIEnv :=
  { lookupMethod := fun _ _ _ => some ⟨0⟩,
    findClass := fun _ => some ⟨0⟩,
    newGlobalRef := fun c => some ⟨c.id⟩ }

/-- A concrete host runtime in which every lookup fails. -/
def envB : JNIEnv :=
  { lookupMethod := fun _ _ _ => none,
    findClass := fun _ => none,
    newGlobalRef := fun _ => none }

/-- A concrete VM handle whose environment is available. -/
def vmA : JavaVM := ⟨some envA⟩

/-- The cache after the first k assignments of cache_methods against
envA. -/
def traceCacheA (k : Nat) : Cache := (runSteps envA (cacheSteps.take k) initialCache).1

/-- Concrete two-caller trace state: caller 0 holds the Once with k
assignments done, caller 1 has not entered call_once yet. -/
def traceSysA (k : Nat) : Sys 2 :=
  { once := .inProgress, cache := traceCacheA k,
    threads := fun j => if j = 0 then .running (cacheSteps.drop k) else .start,
    runs := 1 }

/-- Concrete state after caller 0 completed initialization while
caller 1 has not called init_cache yet. -/
def sysDoneA : Sys 2 :=
  { once := .done, cache := traceCacheA 21,
    threads := fun j => if j = 0 then .finished else .start, runs := 1 }

/-- Concrete state after caller 1 subsequently returned through the
fast path. -/
def sysFinA : Sys 2 :=
  { once := .done, cache := traceCacheA 21, threads := fun _ => .finished, runs := 1 }

/-- Successful get_method_id always yields some, with the method id
coming from the single host-runtime lookup for that descriptor. -/
theorem get_method_id_ok_elim (env : JNIEnv) (cl nm sg : String) (v : Option JMethodID)
    (h : get_method_id env cl nm sg = .ok v) :
    ∃ m, v = some m ∧ env.lookupMethod cl nm sg = some m := by
  unfold get_method_id at h
  cases hl : env.lookupMethod cl nm sg with
  | none => rw [hl] at h; exact absurd h (by simp)
  | some m =>
      rw [hl] at h
      simp only [Except.ok.injEq] at h
      exact ⟨m, h.symm, rfl⟩

/-- Successful get_class always yields some, and the stored value is
the durable reference produced by new_global_ref from the looked-up
class. -/
theorem get_class_ok_elim (env : JNIEnv) (cl : String) (v : Option GlobalRef)
    (h : get_class env cl = .ok v) :
    ∃ c0 g, env.findClass cl = some c0 ∧ env.newGlobalRef c0 = some g ∧ v = some g := by
  unfold get_class at h
  split at h
  · exact absurd h (by simp)
  · rename_i c0 hf
    split at h
    · exact absurd h (by simp)
    · rename_i g hg
      simp only [Except.ok.injEq] at h
      exact ⟨c0, g, hf, hg, h.symm⟩

/-- The panic outcome of a single assignment does not depend on the
current cache contents. -/
theorem runStep_snd (env : JNIEnv) (st : Step) (c : Cache) :
    (runStep env st c).2 =
      (match stepErr env st with
       | some e => Except.error e
       | none => Except.ok ()) := by
  cases st with
  | m slot cl nm sg =>
      cases hg : get_method_id env cl nm sg <;> simp [runStep, stepErr, hg]
  | c slot cl =>
      cases hg : get_class env cl <;> simp [runStep, stepErr, hg]

/-- Unfolding equation for runSteps on a cons cell. -/
theorem runSteps_cons (env : JNIEnv) (st : Step) (rest : List Step) (c : Cache) :
    runSteps env (st :: rest) c =
      (match runStep env st c with
       | (c1, .ok _) => runSteps env rest c1
       | (c1, .error e) => (c1, .error e)) := rfl

/-- The second component of runSteps is determined by the environment
alone: the outcome is the same on every run. -/
theorem runSteps_snd (env : JNIEnv) (steps : List Step) :
    ∀ c, (runSteps env steps c).2 = runStepsExc env steps := by
  induction steps with
  | nil => intro c; rfl
  | cons st rest ih =>
      intro c
      have hs := runStep_snd env st c
      rw [runSteps_cons]
      rcases hr : runStep env st c with ⟨c1, r⟩
      rw [hr] at hs
      cases he : stepErr env st with
      | none =>
          rw [he] at hs
          simp only at hs
          subst hs
          simp [runStepsExc, he, ih c1]
      | some e =>
          rw [he] at hs
          simp only at hs
          subst hs
          simp [runStepsExc, he]

/-- A sequence of assignments panics with message e exactly when the
first assignment in order whose resolution fails panics with e:
failures are reported against the first failing symbol. -/
theorem runStepsExc_error_iff (env : JNIEnv) (steps : List Step) (e : String) :
    runStepsExc env steps = .error e ↔
      ∃ st, steps.find? (fun t => !(stepOkb env t)) = some st ∧ stepErr env st = some e := by
  induction steps with
  | nil => simp [runStepsExc]
  | cons st rest ih =>
      cases he : stepErr env st with
      | some e0 =>
          simp [runStepsExc, he, stepOkb, List.find?]
      | none =>
          simp [runStepsExc, he, stepOkb, List.find?, ih]

/-- A sequence of assignments succeeds exactly when every resolution in
it succeeds. -/
theorem runStepsExc_ok_iff (env : JNIEnv) (steps : List Step) :
    runStepsExc env steps = .ok () ↔ steps.all (stepOkb env) = true := by
  induction steps with
  | nil => simp [runStepsExc]
  | cons st rest ih =>
      cases he : stepErr env st with
      | some e0 => simp [runStepsExc, he, stepOkb, List.all_cons]
      | none => simp [runStepsExc, he, stepOkb, List.all_cons, ih]

/-- A populated method slot stays populated across a single
assignment: assignments only ever store some values. -/
theorem runStep_mids_isSome (env : JNIEnv) (st : Step) (c : Cache) (ms : MSlot)
    (h : (c.mids ms).isSome = true) :
    (((runStep env st c).1).mids ms).isSome = true := by
  cases st with
  | m slot cl nm sg =>
      cases hg : get_method_id env cl nm sg with
      | ok v =>
          obtain ⟨m, hv, _⟩ := get_method_id_ok_elim env cl nm sg v hg
          subst hv
          simp only [runStep, hg]
          by_cases hms : ms = slot <;> simp [hms, h]
      | error e => simp [runStep, hg, h]
  | c slot cl =>
      cases hg : get_class env cl with
      | ok v => simp [runStep, hg, h]
      | error e => simp [runStep, hg, h]

/-- A populated class slot stays populated across a single
assignment. -/
theorem runStep_refs_isSome (env : JNIEnv) (st : Step) (c : Cache) (cs : CSlot)
    (h : (c.refs cs).isSome = true) :
    (((runStep env st c).1).refs cs).isSome = true := by
  cases st with
  | m slot cl nm sg =>
      cases hg : get_method_id env cl nm sg with
      | ok v => simp [runStep, hg, h]
      | error e => simp [runStep, hg, h]
  | c slot cl =>
      cases hg : get_class env cl with
      | ok v =>
          obtain ⟨c0, g, _, _, hv⟩ := get_class_ok_elim env cl v hg
          subst hv
          simp only [runStep, hg]
          by_cases hcs : cs = slot <;> simp [hcs, h]
      | error e => simp [runStep, hg, h]

/-- A populated method slot stays populated across any assignment
sequence. -/
theorem runSteps_mids_mono (env : JNIEnv) (steps : List Step) :
    ∀ c ms, (c.mids ms).isSome = true →
      (((runSteps env steps c).1).mids ms).isSome = true := by
  induction steps with
  | nil => intro c ms h; exact h
  | cons st rest ih =>
      intro c ms h
      rw [runSteps_cons]
      have h1 := runStep_mids_isSome env st c ms h
      rcases hr : runStep env st c with ⟨c1, r⟩
      rw [hr] at h1
      cases r with
      | ok u => simpa using ih c1 ms h1
      | error e => simpa using h1

/-- A populated class slot stays populated across any assignment
sequence. -/
theorem runSteps_refs_mono (env : JNIEnv) (steps : List Step) :
    ∀ c cs, (c.refs cs).isSome = true →
      (((runSteps env steps c).1).refs cs).isSome = true := by
  induction steps with
  | nil => intro c cs h; exact h
  | cons st rest ih =>
      intro c cs h
      rw [runSteps_cons]
      have h1 := runStep_refs_isSome env st c cs h
      rcases hr : runStep env st c with ⟨c1, r⟩
      rw [hr] at h1
      cases r with
      | ok u => simpa using ih c1 cs h1
      | error e => simpa using h1

/-- After a successful assignment sequence, every method slot targeted
by some assignment in it is populated. -/
theorem runSteps_ok_mids_written (env : JNIEnv) (steps : List Step) :
    ∀ c c' u, runSteps env steps c = (c', .ok u) →
      ∀ ms, steps.any (writesM ms) = true → (c'.mids ms).isSome = true := by
  induction steps with
  | nil => intro c c' u h ms hany; simp at hany
  | cons st rest ih =>
      intro c c' u h ms hany
      rw [runSteps_cons] at h
      rcases hr : runStep env st c with ⟨c1, r⟩
      rw [hr] at h
      cases r with
      | error e => simp at h
      | ok w =>
          simp only at h
          rw [List.any_cons] at hany
          rcases Bool.or_eq_true_iff.mp hany with hst | hrest
          · have h1 : (c1.mids ms).isSome = true := by
              cases st with
              | c sl cl => simp [writesM] at hst
              | m sl cl nm sg =>
                  have hsl : sl = ms := by simpa [writesM] using hst
                  subst hsl
                  cases hg : get_method_id env cl nm sg with
                  | error e => simp [runStep, hg] at hr
                  | ok v =>
                      obtain ⟨m, hv, _⟩ := get_method_id_ok_elim env cl nm sg v hg
                      subst hv
                      simp only [runStep, hg, Prod.mk.injEq] at hr
                      rw [← hr.1]
                      simp
            have := runSteps_mids_mono env rest c1 ms h1
            rw [h] at this
            simpa using this
          · exact ih c1 c' u h ms hrest

/-- After a successful assignment sequence, every class slot targeted
by some assignment in it is populated. -/
theorem runSteps_ok_refs_written (env : JNIEnv) (steps : List Step) :
    ∀ c c' u, runSteps env steps c = (c', .ok u) →
      ∀ cs, steps.any (writesC cs) = true → (c'.refs cs).isSome = true := by
  induction steps with
  | nil => intro c c' u h cs hany; simp at hany
  | cons st rest ih =>
      intro c c' u h cs hany
      rw [runSteps_cons] at h
      rcases hr : runStep env st c with ⟨c1, r⟩
      rw [hr] at h
      cases r with
      | error e => simp at h
      | ok w =>
          simp only at h
          rw [List.any_cons] at hany
          rcases Bool.or_eq_true_iff.mp hany with hst | hrest
          · have h1 : (c1.refs cs).isSome = true := by
              cases st with
              | m sl cl nm sg => simp [writesC] at hst
              | c sl cl =>
                  have hsl : sl = cs := by simpa [writesC] using hst
                  subst hsl
                  cases hg : get_class env cl with
                  | error e => simp [runStep, hg] at hr
                  | ok v =>
                      obtain ⟨c0, g, _, _, hv⟩ := get_class_ok_elim env cl v hg
                      subst hv
                      simp only [runStep, hg, Prod.mk.injEq] at hr
                      rw [← hr.1]
                      simp
            have := runSteps_refs_mono env rest c1 cs h1
            rw [h] at this
            simpa using this
          · exact ih c1 c' u h cs hrest

/-- Provenance of class slots: after a successful assignment sequence,
a class slot is either untouched or holds exactly the durable global
reference obtained from new_global_ref for the class looked up by one
of the class assignments in the sequence. -/
theorem runSteps_ok_refs_prov (env : JNIEnv) (steps : List Step) :
    ∀ c c' u, runSteps env steps c = (c', .ok u) →
      ∀ cs, c'.refs cs = c.refs cs ∨
        ∃ cl c0 g, Step.c cs cl ∈ steps ∧ env.findClass cl = some c0 ∧
          env.newGlobalRef c0 = some g ∧ c'.refs cs = some g := by
  induction steps with
  | nil =>
      intro c c' u h cs
      simp only [runSteps] at h
      rw [(Prod.mk.injEq ..).mp h |>.1]
      exact Or.inl rfl
  | cons st rest ih =>
      intro c c' u h cs
      rw [runSteps_cons] at h
      rcases hr : runStep env st c with ⟨c1, r⟩
      rw [hr] at h
      cases r with
      | error e => simp at h
      | ok w =>
          simp only at h
          rcases ih c1 c' u h cs with heq | ⟨cl, c0, g, hmem, hf, hg, hval⟩
          · cases st with
            | m sl cl nm sg =>
                cases hgm : get_method_id env cl nm sg with
                | error e => simp [runStep, hgm] at hr
                | ok v =>
                    simp only [runStep, hgm, Prod.mk.injEq] at hr
                    rw [heq, ← hr.1]
                    exact Or.inl rfl
            | c sl cl =>
                cases hgc : get_class env cl with
                | error e => simp [runStep, hgc] at hr
                | ok v =>
                    obtain ⟨c0, g, hf, hg, hv⟩ := get_class_ok_elim env cl v hgc
                    subst hv
                    simp only [runStep, hgc, Prod.mk.injEq] at hr
                    by_cases hcs : cs = sl
                    · subst hcs
                      refine Or.inr ⟨cl, c0, g, List.mem_cons_self .., hf, hg, ?_⟩
                      rw [heq, ← hr.1]
                      simp
                    · rw [heq, ← hr.1]
                      simp [hcs]
          · exact Or.inr ⟨cl, c0, g, List.mem_cons_of_mem st hmem, hf, hg, hval⟩

/-- Splitting an assignment sequence at an append. -/
theorem runSteps_append (env : JNIEnv) (xs ys : List Step) :
    ∀ c, runSteps env (xs ++ ys) c =
      (match runSteps env xs c with
       | (c1, .ok _) => runSteps env ys c1
       | (c1, .error e) => (c1, .error e)) := by
  induction xs with
  | nil => intro c; rfl
  | cons st rest ih =>
      intro c
      rw [List.cons_append, runSteps_cons, runSteps_cons]
      rcases hr : runStep env st c with ⟨c1, r⟩
      cases r with
      | ok u => simpa using ih c1
      | error e => simp

/-- Every method slot is the target of some assignment in
cache_methods, and likewise every class slot. -/
theorem cacheSteps_cover :
    (∀ ms, cacheSteps.any (writesM ms) = true) ∧
      (∀ cs, cacheSteps.any (writesC cs) = true) := by decide

/-- When cache_methods succeeds, every slot of the Symbol Table is
populated. -/
theorem cache_methods_ok_populated (env : JNIEnv) (c c' : Cache) (u : Unit)
    (h : cache_methods env c = (c', .ok u)) : populatedC c' := by
  constructor
  · intro ms
    exact runSteps_ok_mids_written env cacheSteps c c' u h ms (cacheSteps_cover.1 ms)
  · intro cs
    exact runSteps_ok_refs_written env cacheSteps c c' u h cs (cacheSteps_cover.2 cs)

/-- Accessor reads while the guard is not done fail fast with the
panic message of check_cache_initialized: method slots. -/
theorem readMid_gated (s : ProcState) (h : s.once.isDone = false) (slot : MSlot) :
    readMid s slot = .error ("JNI cache is not initialized") := by
  simp [readMid, check_cache_initialized, h]

/-- Accessor reads while the guard is not done fail fast with the
panic message of check_cache_initialized: class slots. -/
theorem readRef_gated (s : ProcState) (h : s.once.isDone = false) (slot : CSlot) :
    readRef s slot = .error ("JNI cache is not initialized") := by
  simp [readRef, check_cache_initialized, h]

/-- When the guard is done and the method slot is populated, the
accessor read succeeds: the unchecked unwrap cannot fail. -/
theorem readMid_ok (s : ProcState) (hd : s.once.isDone = true) (slot : MSlot)
    (hp : (s.cache.mids slot).isSome = true) : ∃ m, readMid s slot = .ok m := by
  obtain ⟨m, hm⟩ := Option.isSome_iff_exists.mp hp
  exact ⟨m, by simp [readMid, check_cache_initialized, hd, hm]⟩

/-- When the guard is done and the class slot is populated, the
accessor read succeeds: the unchecked unwrap cannot fail. -/
theorem readRef_ok (s : ProcState) (hd : s.once.isDone = true) (slot : CSlot)
    (hp : (s.cache.refs slot).isSome = true) : ∃ g, readRef s slot = .ok g := by
  obtain ⟨g, hg⟩ := Option.isSome_iff_exists.mp hp
  exact ⟨g, by simp [readRef, check_cache_initialized, hd, hg]⟩

/-- While the guard is not done, every accessor fails fast with the
guard panic. -/
theorem accessorsGated_of_not_done (s : ProcState) (h : s.once.isDone = false) :
    accessorsGated s :=
  ⟨readMid_gated s h _, readMid_gated s h _, readMid_gated s h _, readMid_gated s h _,
   readMid_gated s h _, readMid_gated s h _, readMid_gated s h _, readMid_gated s h _,
   readMid_gated s h _, readMid_gated s h _, readMid_gated s h _, readMid_gated s h _,
   readMid_gated s h _, readMid_gated s h _, readMid_gated s h _, readMid_gated s h _,
   readRef_gated s h _, readRef_gated s h _, readRef_gated s h _, readRef_gated s h _,
   readRef_gated s h _⟩

/-- With the guard done and the table populated, every accessor
returns a value. -/
theorem accessorsOk_of_populated (s : ProcState) (hd : s.once.isDone = true)
    (hp : populatedC s.cache) : accessorsOk s :=
  ⟨readMid_ok s hd _ (hp.1 _), readMid_ok s hd _ (hp.1 _), readMid_ok s hd _ (hp.1 _),
   readMid_ok s hd _ (hp.1 _), readMid_ok s hd _ (hp.1 _), readMid_ok s hd _ (hp.1 _),
   readMid_ok s hd _ (hp.1 _), readMid_ok s hd _ (hp.1 _), readMid_ok s hd _ (hp.1 _),
   readMid_ok s hd _ (hp.1 _), readMid_ok s hd _ (hp.1 _), readMid_ok s hd _ (hp.1 _),
   readMid_ok s hd _ (hp.1 _), readMid_ok s hd _ (hp.1 _), readMid_ok s hd _ (hp.1 _),
   readMid_ok s hd _ (hp.1 _), readRef_ok s hd _ (hp.2 _), readRef_ok s hd _ (hp.2 _),
   readRef_ok s hd _ (hp.2 _), readRef_ok s hd _ (hp.2 _), readRef_ok s hd _ (hp.2 _)⟩

/-- A failing assignment leaves the cache untouched. -/
theorem runStep_error_fst (env : JNIEnv) (st : Step) (c : Cache) (e : String)
    (h : (runStep env st c).2 = .error e) : (runStep env st c).1 = c := by
  cases st with
  | m slot cl nm sg =>
      cases hg : get_method_id env cl nm sg <;> simp [runStep, hg] at h ⊢
  | c slot cl =>
      cases hg : get_class env cl <;> simp [runStep, hg] at h ⊢

/-- If some caller holds the Once then the Once is in progress. -/
theorem runner_inProgress (env : JNIEnv) {n : Nat} (s : Sys n) (hin : SysInv env s)
    (i : Fin n) (rest : List Step) (hi : s.threads i = .running rest) :
    s.once = .inProgress := by
  cases hoc : s.once with
  | new =>
      have := (hin.1 hoc).2.2 i
      rw [hi] at this
      exact absurd this (by simp)
  | inProgress => rfl
  | poisoned => exact absurd hi ((hin.2.2.2 hoc).1 i rest)
  | done => exact absurd hi ((hin.2.2.1 hoc).2.2 i rest)

/-- Executing one successful assignment as a singleton sequence. -/
theorem runSteps_singleton_ok (env : JNIEnv) (st : Step) (c : Cache)
    (hok : (runStep env st c).2 = .ok ()) :
    runSteps env [st] c = ((runStep env st c).1, .ok ()) := by
  rcases hrs : runStep env st c with ⟨c1, r⟩
  rw [hrs] at hok
  have hr2 : r = .ok () := hok
  subst hr2
  rw [runSteps_cons, hrs]
  rfl

/-- The invariant holds in every reachable state of the concurrent
model. -/
theorem sysInv_reach (env : JNIEnv) {n : Nat} (s : Sys n) (h : SysReach env s) :
    SysInv env s := by
  induction h with
  | init =>
      refine ⟨fun _ => ⟨rfl, rfl, fun i => rfl⟩, fun hco => ?_, fun hco => ?_,
        fun hco => ?_⟩ <;> simp [initialSys] at hco
  | step i s s' hre hs ih =>
      cases hs with
      | acquire hi ho ho' hc ht hr =>
          obtain ⟨hcache, hruns, hall⟩ := ih.1 ho
          refine ⟨?_, ?_, ?_, ?_⟩
          · intro hx; rw [ho'] at hx; exact absurd hx (by simp)
          · intro _
            refine ⟨by omega, i, ⟨cacheSteps, [], ?_, by simp, ?_⟩, ?_, ?_⟩
            · rw [ht i]; simp
            · rw [hc, hcache]; rfl
            · intro j hj rest
              rw [ht j, if_neg hj, hall j]
              simp
            · intro j
              rw [ht j]
              by_cases hj : j = i
              · simp [hj]
              · rw [if_neg hj, hall j]; simp
          · intro hx; rw [ho'] at hx; exact absurd hx (by simp)
          · intro hx; rw [ho'] at hx; exact absurd hx (by simp)
      | work st rest hi hok ho' hc ht hr =>
          have hop : s.once = .inProgress := runner_inProgress env s ih i (st :: rest) hi
          obtain ⟨hruns, i0, ⟨rest0, pre0, hti0, hpre0, hrun0⟩, huniq, hnof⟩ := ih.2.1 hop
          have hii : i = i0 := by
            by_contra hne
            exact huniq i hne (st :: rest) hi
          subst hii
          rw [hi] at hti0
          have hr0 : st :: rest = rest0 := by injection hti0
          subst hr0
          refine ⟨?_, ?_, ?_, ?_⟩
          · intro hx; rw [ho', hop] at hx; exact absurd hx (by simp)
          · intro _
            refine ⟨by rw [hr]; exact hruns, i, ⟨rest, pre0 ++ [st], ?_, ?_, ?_⟩, ?_, ?_⟩
            · rw [ht i]; simp
            · rw [List.append_assoc]; simpa using hpre0
            · rw [runSteps_append, hrun0]
              show runSteps env [st] s.cache = (s'.cache, .ok ())
              rw [runSteps_singleton_ok env st s.cache hok, hc]
            · intro j hj rest1
              rw [ht j, if_neg hj]
              exact huniq j hj rest1
            · intro j
              rw [ht j]
              by_cases hj : j = i
              · simp [hj]
              · rw [if_neg hj]; exact hnof j
          · intro hx; rw [ho', hop] at hx; exact absurd hx (by simp)
          · intro hx; rw [ho', hop] at hx; exact absurd hx (by simp)
      | fail st rest e hi herr ho' hc ht hr =>
          have hop : s.once = .inProgress := runner_inProgress env s ih i (st :: rest) hi
          obtain ⟨hruns, i0, ⟨rest0, pre0, hti0, hpre0, hrun0⟩, huniq, hnof⟩ := ih.2.1 hop
          have hii : i = i0 := by
            by_contra hne
            exact huniq i hne (st :: rest) hi
          subst hii
          refine ⟨?_, ?_, ?_, ?_⟩
          · intro hx; rw [ho'] at hx; exact absurd hx (by simp)
          · intro hx; rw [ho'] at hx; exact absurd hx (by simp)
          · intro hx; rw [ho'] at hx; exact absurd hx (by simp)
          · intro _
            constructor
            · intro j rest1
              rw [ht j]
              by_cases hj : j = i
              · simp [hj]
              · rw [if_neg hj]; exact huniq j hj rest1
            · intro j
              rw [ht j]
              by_cases hj : j = i
              · simp [hj]
              · rw [if_neg hj]; exact hnof j
      | complete hi ho' hc ht hr =>
          have hop : s.once = .inProgress := runner_inProgress env s ih i [] hi
          obtain ⟨hruns, i0, ⟨rest0, pre0, hti0, hpre0, hrun0⟩, huniq, hnof⟩ := ih.2.1 hop
          have hii : i = i0 := by
            by_contra hne
            exact huniq i hne [] hi
          subst hii
          rw [hi] at hti0
          have hr0 : ([] : List Step) = rest0 := by injection hti0
          subst hr0
          have hpc : pre0 = cacheSteps := by simpa using hpre0
          refine ⟨?_, ?_, ?_, ?_⟩
          · intro hx; rw [ho'] at hx; exact absurd hx (by simp)
          · intro hx; rw [ho'] at hx; exact absurd hx (by simp)
          · intro _
            refine ⟨by rw [hr]; exact hruns, ?_, ?_⟩
            · rw [← hpc, hrun0, hc]
            · intro j rest1
              rw [ht j]
              by_cases hj : j = i
              · simp [hj]
              · rw [if_neg hj]; exact huniq j hj rest1
          · intro hx; rw [ho'] at hx; exact absurd hx (by simp)
      | fastPath hi ho ho' hc ht hr =>
          obtain ⟨hruns, hsteps, hnor⟩ := ih.2.2.1 ho
          refine ⟨?_, ?_, ?_, ?_⟩
          · intro hx; rw [ho', ho] at hx; exact absurd hx (by simp)
          · intro hx; rw [ho', ho] at hx; exact absurd hx (by simp)
          · intro _
            refine ⟨by rw [hr]; exact hruns, by rw [hc]; exact hsteps, ?_⟩
            intro j rest1
            rw [ht j]
            by_cases hj : j = i
            · simp [hj]
            · rw [if_neg hj]; exact hnor j rest1
          · intro hx; rw [ho', ho] at hx; exact absurd hx (by simp)
      | poisonedPanic hi ho ho' hc ht hr =>
          obtain ⟨hnor, hnof⟩ := ih.2.2.2 ho
          refine ⟨?_, ?_, ?_, ?_⟩
          · intro hx; rw [ho', ho] at hx; exact absurd hx (by simp)
          · intro hx; rw [ho', ho] at hx; exact absurd hx (by simp)
          · intro hx; rw [ho', ho] at hx; exact absurd hx (by simp)
          · intro _
            constructor
            · intro j rest1
              rw [ht j]
              by_cases hj : j = i
              · simp [hj]
              · rw [if_neg hj]; exact hnor j rest1
            · intro j
              rw [ht j]
              by_cases hj : j = i
              · simp [hj]
              · rw [if_neg hj]; exact hnof j

/-- The panic outcome of cache_methods does not depend on the cache it
starts from: deterministic across runs. -/
theorem cache_methods_snd (env : JNIEnv) (c : Cache) :
    (cache_methods env c).2 = runStepsExc env cacheSteps :=
  runSteps_snd env cacheSteps c

/-- Unfolding JNI_OnLoad when the environment is available. -/
theorem JNI_OnLoad_some (vm : JavaVM) (env : JNIEnv) (hv : vm.get_env = some env)
    (s : ProcState) :
    JNI_OnLoad vm s =
      (match init_cache env s with
       | (s1, .ok _) => (s1, .ok JNI_VERSION_1_8)
       | (s1, .error _) => (s1, .ok INVALID_JNI_VERSION)) := by
  unfold JNI_OnLoad
  rw [hv]

/-- Unfolding init_cache on a fresh (Once new) state. -/
theorem init_cache_new (env : JNIEnv) (c : Cache) :
    init_cache env ⟨.new, c⟩ =
      (match cache_methods env c with
       | (c1, .ok _) => (⟨.done, c1⟩, .ok ())
       | (c1, .error e) => (⟨.poisoned, c1⟩, .error e)) := rfl

/-- Caller 0 of the concrete trace enters the Once. -/
theorem reach_traceA0 : SysReach envA (traceSysA 0) :=
  SysReach.step 0 _ _ SysReach.init
    (SysStep.acquire _ _ rfl rfl rfl rfl (fun _ => rfl) rfl)

/-- Caller 0 of the concrete trace executes all 21 assignments and
completes, reaching the done state. -/
theorem reach_sysDoneA : SysReach envA sysDoneA := by
  have h0 : SysReach envA (traceSysA 0) := reach_traceA0
  have h1 : SysReach envA (traceSysA 1) :=
    SysReach.step 0 _ _ h0
      (SysStep.work _ _ _ _ rfl rfl rfl rfl (by intro j; fin_cases j <;> rfl) rfl)
  have h2 : SysReach envA (traceSysA 2) :=
    SysReach.step 0 _ _ h1
      (SysStep.work _ _ _ _ rfl rfl rfl rfl (by intro j; fin_cases j <;> rfl) rfl)
  have h3 : SysReach envA (traceSysA 3) :=
    SysReach.step 0 _ _ h2
      (SysStep.work _ _ _ _ rfl rfl rfl rfl (by intro j; fin_cases j <;> rfl) rfl)
  have h4 : SysReach envA (traceSysA 4) :=
    SysReach.step 0 _ _ h3
      (SysStep.work _ _ _ _ rfl rfl rfl rfl (by intro j; fin_cases j <;> rfl) rfl)
  have h5 : SysReach envA (traceSysA 5) :=
    SysReach.step 0 _ _ h4
      (SysStep.work _ _ _ _ rfl rfl rfl rfl (by intro j; fin_cases j <;> rfl) rfl)
  have h6 : SysReach envA (traceSysA 6) :=
    SysReach.step 0 _ _ h5
      (SysStep.work _ _ _ _ rfl rfl rfl rfl (by intro j; fin_cases j <;> rfl) rfl)
  have h7 : SysReach envA (traceSysA 7) :=
    SysReach.step 0 _ _ h6
      (SysStep.work _ _ _ _ rfl rfl rfl rfl (by intro j; fin_cases j <;> rfl) rfl)
  have h8 : SysReach envA (traceSysA 8) :=
    SysReach.step 0 _ _ h7
      (SysStep.work _ _ _ _ rfl rfl rfl rfl (by intro j; fin_cases j <;> rfl) rfl)
  have h9 : SysReach envA (traceSysA 9) :=
    SysReach.step 0 _ _ h8
      (SysStep.work _ _ _ _ rfl rfl rfl rfl (by intro j; fin_cases j <;> rfl) rfl)
  have h10 : SysReach envA (traceSysA 10) :=
    SysReach.step 0 _ _ h9
      (SysStep.work _ _ _ _ rfl rfl rfl rfl (by intro j; fin_cases j <;> rfl) rfl)
  have h11 : SysReach envA (traceSysA 11) :=
    SysReach.step 0 _ _ h10
      (SysStep.work _ _ _ _ rfl rfl rfl rfl (by intro j; fin_cases j <;> rfl) rfl)
  have h12 : SysReach envA (traceSysA 12) :=
    SysReach.step 0 _ _ h11
      (SysStep.work _ _ _ _ rfl rfl rfl rfl (by intro j; fin_cases j <;> rfl) rfl)
  have h13 : SysReach envA (traceSysA 13) :=
    SysReach.step 0 _ _ h12
      (SysStep.work _ _ _ _ rfl rfl rfl rfl (by intro j; fin_cases j <;> rfl) rfl)
  have h14 : SysReach envA (traceSysA 14) :=
    SysReach.step 0 _ _ h13
      (SysStep.work _ _ _ _ rfl rfl rfl rfl (by intro j; fin_cases j <;> rfl) rfl)
  have h15 : SysReach envA (traceSysA 15) :=
    SysReach.step 0 _ _ h14
      (SysStep.work _ _ _ _ rfl rfl rfl rfl (by intro j; fin_cases j <;> rfl) rfl)
  have h16 : SysReach envA (traceSysA 16) :=
    SysReach.step 0 _ _ h15
      (SysStep.work _ _ _ _ rfl rfl rfl rfl (by intro j; fin_cases j <;> rfl) rfl)
  have h17 : SysReach envA (traceSysA 17) :=
    SysReach.step 0 _ _ h16
      (SysStep.work _ _ _ _ rfl rfl rfl rfl (by intro j; fin_cases j <;> rfl) rfl)
  have h18 : SysReach envA (traceSysA 18) :=
    SysReach.step 0 _ _ h17
      (SysStep.work _ _ _ _ rfl rfl rfl rfl (by intro j; fin_cases j <;> rfl) rfl)
  have h19 : SysReach envA (traceSysA 19) :=
    SysReach.step 0 _ _ h18
      (SysStep.work _ _ _ _ rfl rfl rfl rfl (by intro j; fin_cases j <;> rfl) rfl)
  have h20 : SysReach envA (traceSysA 20) :=
    SysReach.step 0 _ _ h19
      (SysStep.work _ _ _ _ rfl rfl rfl rfl (by intro j; fin_cases j <;> rfl) rfl)
  have h21 : SysReach envA (traceSysA 21) :=
    SysReach.step 0 _ _ h20
      (SysStep.work _ _ _ _ rfl rfl rfl rfl (by intro j; fin_cases j <;> rfl) rfl)
  exact SysReach.step 0 _ _ h21
    (SysStep.complete _ _ rfl rfl rfl (by intro j; fin_cases j <;> rfl) rfl)

/-- Caller 1 returns through the fast path from the done state. -/
theorem step_fastA : SysStep envA (1 : Fin 2) sysDoneA sysFinA :=
  SysStep.fastPath _ _ rfl rfl rfl rfl (by intro j; fin_cases j <;> rfl) rfl

/-- The all-finished state of the concrete trace is reachable. -/
theorem reach_sysFinA : SysReach envA sysFinA :=
  SysReach.step 1 _ _ reach_sysDoneA step_fastA

/-- C1: counter-evidence for the load-hook fault barrier.  The source
calls vm.get_env().expect(..) BEFORE catch_unwind (lines 68 vs 70-74),
so a fault raised while obtaining the host-runtime environment from
the VM context propagates across the load-hook boundary as a panic
instead of being converted into INVALID_JNI_VERSION. -/
theorem jni_onload_env_fault_escapes :
    (JNI_OnLoad ⟨none⟩ ⟨.new, initialCache⟩).2 =
      .error ("Cannot get reference to the JNIEnv") := rfl

/-- C2: in every reachable state of the concurrent model in which all
n init_cache callers have finished (n positive), the call_once closure
cache_methods was entered exactly once, the guard is done, every
caller observes the one fully populated Symbol Table produced by the
full assignment sequence, and a caller that has not entered call_once
has no enabled transition while initialization is in flight: it
blocks until the in-flight run finishes. -/
theorem concurrent_first_touch_exactly_once (env : JNIEnv) {n : Nat} (s : Sys n)
    (h : SysReach env s) (hn : 0 < n) (hfin : ∀ i, s.threads i = TState.finished) :
    s.runs = 1 ∧ s.once = .done ∧
    runSteps env cacheSteps initialCache = (s.cache, .ok ()) ∧ populatedC s.cache ∧
    (∀ (t t' : Sys n) (j : Fin n), SysStep env j t t' → t.threads j = .start →
        t.once ≠ .inProgress) := by
  have hin := sysInv_reach env s h
  have hdone : s.once = .done := by
    cases hoc : s.once with
    | new =>
        have hst := (hin.1 hoc).2.2 ⟨0, hn⟩
        rw [hfin ⟨0, hn⟩] at hst
        exact absurd hst (by simp)
    | inProgress =>
        obtain ⟨_, i0, ⟨rest0, pre0, hti0, _, _⟩, _, _⟩ := hin.2.1 hoc
        rw [hfin i0] at hti0
        exact absurd hti0 (by simp)
    | poisoned => exact absurd (hfin ⟨0, hn⟩) ((hin.2.2.2 hoc).2 ⟨0, hn⟩)
    | done => rfl
  obtain ⟨hruns, hsteps, _⟩ := hin.2.2.1 hdone
  refine ⟨hruns, hdone, hsteps,
    cache_methods_ok_populated env initialCache s.cache () hsteps, ?_⟩
  intro t t' j hst hstart
  cases hst with
  | acquire hi ho ho' hc ht hr => rw [ho]; simp
  | work st rest hi hok ho' hc ht hr =>
      rw [hstart] at hi; exact absurd hi (by simp)
  | fail st rest e hi herr ho' hc ht hr =>
      rw [hstart] at hi; exact absurd hi (by simp)
  | complete hi ho' hc ht hr =>
      rw [hstart] at hi; exact absurd hi (by simp)
  | fastPath hi ho ho' hc ht hr => rw [ho]; simp
  | poisonedPanic hi ho ho' hc ht hr => rw [ho]; simp

/-- C2 witness: the concrete two-caller trace reaches an all-finished
state with exactly one closure entry and the populated table. -/
theorem concurrent_first_touch_exactly_once_witness :
    sysFinA.runs = 1 ∧ sysFinA.once = .done ∧
    runSteps envA cacheSteps initialCache = (sysFinA.cache, .ok ()) ∧
    populatedC sysFinA.cache := by
  have h := concurrent_first_touch_exactly_once envA sysFinA reach_sysFinA (by decide)
    (by intro i; fin_cases i <;> rfl)
  exact ⟨h.1, h.2.1, h.2.2.1, h.2.2.2.1⟩

/-- C3: Symbol Table invariant over all reachable states: while the
guard is new every slot is empty; once the guard is done every slot is
populated; and whenever the guard is not done every accessor fails on
the guard check, so no external reader ever observes a partially
populated table (readers are gated by the guard, not by per-slot
checks). -/
theorem symbol_table_population_gated (env : JNIEnv) {n : Nat} (s : Sys n)
    (h : SysReach env s) :
    (s.once = .new → (∀ ms, s.cache.mids ms = none) ∧ ∀ cs, s.cache.refs cs = none) ∧
    (s.once = .done → populatedC s.cache) ∧
    (s.once.isDone = false → accessorsGated (toProc s)) := by
  have hin := sysInv_reach env s h
  refine ⟨?_, ?_, ?_⟩
  · intro hnew
    rw [(hin.1 hnew).1]
    exact ⟨fun _ => rfl, fun _ => rfl⟩
  · intro hdone
    exact cache_methods_ok_populated env initialCache s.cache () (hin.2.2.1 hdone).2.1
  · intro hnd
    exact accessorsGated_of_not_done (toProc s) hnd

/-- C3 witness: in the concrete trace the final table is fully
populated, and in the initial state (guard not done) every accessor
fails on the guard check. -/
theorem symbol_table_population_gated_witness :
    populatedC sysFinA.cache ∧ accessorsGated (toProc (initialSys 2)) :=
  ⟨(symbol_table_population_gated envA sysFinA reach_sysFinA).2.1 rfl,
   (symbol_table_population_gated envA (initialSys 2) SysReach.init).2.2 rfl⟩

/-- C4: the Resolver treats resolution failure as fatal: get_method_id
and get_class never return an empty (None) slot value; when the
underlying lookup fails they panic with the formatted message (no
retry: each consults the host runtime lookup exactly once by
construction); and any failing descriptor aborts the whole
cache_methods initialization with a panic. -/
theorem resolver_failure_fatal :
    (∀ env cl nm sg, get_method_id env cl nm sg ≠ .ok none) ∧
    (∀ env cl, get_class env cl ≠ .ok none) ∧
    (∀ env cl nm sg, env.lookupMethod cl nm sg = none →
        get_method_id env cl nm sg =
          .error (("Method ") ++ nm ++ (" with signature ") ++ sg ++
            (" of class ") ++ cl ++ (" not found"))) ∧
    (∀ env cl, env.findClass cl = none →
        get_class env cl = .error (("Class ") ++ cl ++ (" not found"))) ∧
    (∀ env c st, st ∈ cacheSteps → stepOkb env st = false →
        ∃ e, (cache_methods env c).2 = .error e) := by
  refine ⟨?_, ?_, ?_, ?_, ?_⟩
  · intro env cl nm sg h
    obtain ⟨m, hm, _⟩ := get_method_id_ok_elim env cl nm sg none h
    exact Option.noConfusion hm
  · intro env cl h
    obtain ⟨c0, g, _, _, hm⟩ := get_class_ok_elim env cl none h
    exact Option.noConfusion hm
  · intro env cl nm sg h
    simp [get_method_id, h]
  · intro env cl h
    simp [get_class, h]
  · intro env c st hmem hbad
    rw [cache_methods_snd]
    cases hv : runStepsExc env cacheSteps with
    | error e => exact ⟨e, rfl⟩
    | ok u =>
        cases u
        have hall := (runStepsExc_ok_iff env cacheSteps).mp hv
        have hst := List.all_eq_true.mp hall st hmem
        rw [hbad] at hst
        exact absurd hst (by simp)

/-- C4 witness: concrete evaluations — successful resolutions are not
None, failing lookups panic with the formatted message, and a failing
descriptor aborts cache_methods. -/
theorem resolver_failure_fatal_witness :
    get_method_id envA ("java/lang/Object") ("getClass") ("()Ljava/lang/Class;") ≠
        .ok none ∧
    get_class envA ("java/lang/Error") ≠ .ok none ∧
    get_method_id envB ("java/lang/Object") ("getClass") ("()Ljava/lang/Class;") =
      .error (("Method ") ++ ("getClass") ++ (" with signature ") ++
        ("()Ljava/lang/Class;") ++ (" of class ") ++ ("java/lang/Object") ++
        (" not found")) ∧
    get_class envB ("java/lang/Error") =
      .error (("Class ") ++ ("java/lang/Error") ++ (" not found")) ∧
    ∃ e, (cache_methods envB initialCache).2 = .error e :=
  ⟨resolver_failure_fatal.1 envA _ _ _,
   resolver_failure_fatal.2.1 envA _,
   resolver_failure_fatal.2.2.1 envB _ _ _ rfl,
   resolver_failure_fatal.2.2.2.1 envB _ rfl,
   resolver_failure_fatal.2.2.2.2 envB initialCache
     (Step.m .OBJECT_GET_CLASS ("java/lang/Object") ("getClass") ("()Ljava/lang/Class;"))
     (by decide) (by decide)⟩

/-- C5: every accessor of the façade invoked while the guard is not in
the done state fails fast with the guard panic and never returns a
handle value. -/
theorem accessors_fail_fast_before_init (s : ProcState) (h : s.once.isDone = false) :
    accessorsGated s :=
  accessorsGated_of_not_done s h

/-- C5 witness: on the fresh state all twenty-one accessors fail with
the guard panic. -/
theorem accessors_fail_fast_before_init_witness :
    accessorsGated ⟨OnceState.new, initialCache⟩ :=
  accessors_fail_fast_before_init ⟨OnceState.new, initialCache⟩ rfl

/-- C6: once an init_cache call has completed successfully (guard
done), any further step by any caller performs no additional
resolution work (the closure entry count is unchanged), leaves the
guard done and every slot unchanged; a repeated sequential init_cache
call is a no-op; and every accessor returns the same value before and
after. -/
theorem repeated_init_cache_noop (env : JNIEnv) {n : Nat} (s s' : Sys n) (i : Fin n)
    (h : SysReach env s) (hd : s.once = .done) (hs : SysStep env i s s') :
    s'.once = .done ∧ s'.cache = s.cache ∧ s'.runs = s.runs ∧
    (∀ (env2 : JNIEnv) (ps : ProcState), ps.once = .done →
        init_cache env2 ps = (ps, .ok ())) ∧
    (∀ slot, readMid (toProc s') slot = readMid (toProc s) slot) ∧
    (∀ slot, readRef (toProc s') slot = readRef (toProc s) slot) := by
  have hin := sysInv_reach env s h
  obtain ⟨hruns, hsteps, hnor⟩ := hin.2.2.1 hd
  have hseq : ∀ (env2 : JNIEnv) (ps : ProcState), ps.once = .done →
      init_cache env2 ps = (ps, .ok ()) := by
    intro env2 ps hps
    rcases ps with ⟨po, pc⟩
    have hpo : po = .done := hps
    subst hpo
    rfl
  cases hs with
  | acquire hi ho ho' hc ht hr =>
      rw [hd] at ho
      exact absurd ho (by simp)
  | work st rest hi hok ho' hc ht hr => exact absurd hi (hnor i (st :: rest))
  | fail st rest e hi herr ho' hc ht hr => exact absurd hi (hnor i (st :: rest))
  | complete hi ho' hc ht hr => exact absurd hi (hnor i [])
  | poisonedPanic hi ho ho' hc ht hr =>
      rw [hd] at ho
      exact absurd ho (by simp)
  | fastPath hi ho ho' hc ht hr =>
      have hts : toProc s' = toProc s := by
        unfold toProc
        rw [ho', hc]
      exact ⟨by rw [ho', hd], hc, hr, hseq, fun slot => by rw [hts],
        fun slot => by rw [hts]⟩

/-- C6 witness: in the concrete trace, the fast-path step of caller 1
from the done state changes neither the guard nor the table, and an
accessor reads the same value before and after. -/
theorem repeated_init_cache_noop_witness :
    sysFinA.once = .done ∧ sysFinA.cache = sysDoneA.cache ∧
    sysFinA.runs = sysDoneA.runs ∧
    readMid (toProc sysFinA) MSlot.RUNTIME_ADAPTER_INITIALIZE_ID =
      readMid (toProc sysDoneA) MSlot.RUNTIME_ADAPTER_INITIALIZE_ID := by
  have h := repeated_init_cache_noop envA sysDoneA sysFinA 1 reach_sysDoneA rfl step_fastA
  exact ⟨h.1, h.2.1, h.2.2.1, h.2.2.2.2.1 _⟩

/-- C7: invoking the load hook once on a fresh state with a valid
host-runtime context in which every descriptor resolves returns the
supported version JNI_VERSION_1_8, and afterwards every cached
descriptor (the sixteen method ids and the five class references) is
retrievable through its accessor. -/
theorem jni_onload_success_all_cached (vm : JavaVM) (env : JNIEnv)
    (hv : vm.get_env = some env) (hall : cacheSteps.all (stepOkb env) = true) :
    (JNI_OnLoad vm ⟨.new, initialCache⟩).2 = .ok JNI_VERSION_1_8 ∧
    accessorsOk (JNI_OnLoad vm ⟨.new, initialCache⟩).1 := by
  have hexc : runStepsExc env cacheSteps = .ok () :=
    (runStepsExc_ok_iff env cacheSteps).mpr hall
  have hsnd : (cache_methods env initialCache).2 = .ok () := by
    rw [cache_methods_snd]; exact hexc
  rcases hcm : cache_methods env initialCache with ⟨c1, r⟩
  rw [hcm] at hsnd
  have hr2 : r = .ok () := hsnd
  subst hr2
  have hOn : JNI_OnLoad vm ⟨.new, initialCache⟩ = (⟨.done, c1⟩, .ok JNI_VERSION_1_8) := by
    rw [JNI_OnLoad_some vm env hv, init_cache_new, hcm]
  have hpop : populatedC c1 := cache_methods_ok_populated env initialCache c1 () hcm
  rw [hOn]
  exact ⟨rfl, accessorsOk_of_populated ⟨.done, c1⟩ rfl hpop⟩

/-- C7 witness: against the concrete all-resolving host runtime, the
load hook returns JNI_VERSION_1_8 and all accessors succeed. -/
theorem jni_onload_success_all_cached_witness :
    (JNI_OnLoad vmA ⟨.new, initialCache⟩).2 = .ok JNI_VERSION_1_8 ∧
    accessorsOk (JNI_OnLoad vmA ⟨.new, initialCache⟩).1 :=
  jni_onload_success_all_cached vmA envA rfl (by decide)

/-- C8: cache_methods resolves descriptors in exactly the fixed order
the spec states (Object.getClass first, then Class.getName,
Throwable.getMessage, Throwable.getCause,
ExecutionException.getErrorCode, the eleven ServiceRuntimeAdapter
methods, then the five class references); its panic outcome is
deterministic across runs (independent of prior slot contents); and it
panics with message e exactly when the first descriptor in that order
whose resolution fails panics with e. -/
theorem resolution_order_and_first_failure :
    cacheSteps.map Step.descr = claimedResolutionOrder ∧
    (∀ env c c', (cache_methods env c).2 = (cache_methods env c').2) ∧
    (∀ env c e, (cache_methods env c).2 = .error e ↔
      ∃ st, cacheSteps.find? (fun t => !(stepOkb env t)) = some st ∧
        stepErr env st = some e) := by
  refine ⟨rfl, ?_, ?_⟩
  · intro env c c'
    rw [cache_methods_snd, cache_methods_snd]
  · intro env c e
    rw [cache_methods_snd]
    exact runStepsExc_error_iff env cacheSteps e

/-- C8 witness: against the host runtime in which everything is
missing, cache_methods panics with the message of the first descriptor
in the resolution order (Object.getClass). -/
theorem resolution_order_and_first_failure_witness :
    (cache_methods envB initialCache).2 =
      .error (("Method ") ++ ("getClass") ++ (" with signature ") ++
        ("()Ljava/lang/Class;") ++ (" of class ") ++ ("java/lang/Object") ++
        (" not found")) :=
  (resolution_order_and_first_failure.2.2 envB initialCache _).mpr
    ⟨Step.m .OBJECT_GET_CLASS ("java/lang/Object") ("getClass") ("()Ljava/lang/Class;"),
     by decide, by decide⟩

/-- C9: get_class always converts the looked-up class into a durable
global reference before storing it — a successful result is exactly
the value produced by new_global_ref on the found class — and after a
successful cache_methods run from the empty table every class slot
holds such a global reference obtained for one of the class
descriptors of the table. -/
theorem class_refs_durable_global :
    (∀ env cl r, get_class env cl = .ok r →
        ∃ c0 g, env.findClass cl = some c0 ∧ env.newGlobalRef c0 = some g ∧
          r = some g) ∧
    (∀ env c1 u, cache_methods env initialCache = (c1, .ok u) →
        ∀ cs, ∃ cl c0 g, Step.c cs cl ∈ cacheSteps ∧ env.findClass cl = some c0 ∧
          env.newGlobalRef c0 = some g ∧ c1.refs cs = some g) := by
  constructor
  · exact fun env cl r h => get_class_ok_elim env cl r h
  · intro env c1 u h cs
    rcases runSteps_ok_refs_prov env cacheSteps initialCache c1 u h cs with heq | hprov
    · have hpop := cache_methods_ok_populated env initialCache c1 u h
      have hs := hpop.2 cs
      rw [heq] at hs
      simp [initialCache] at hs
    · exact hprov

/-- C9 witness: concrete run — the stored java/lang/Error reference is
the global reference produced by new_global_ref. -/
theorem class_refs_durable_global_witness :
    (∃ c0 g, envA.findClass ("java/lang/Error") = some c0 ∧
        envA.newGlobalRef c0 = some g ∧
        (some (⟨0⟩ : GlobalRef) : Option GlobalRef) = some g) ∧
    (∃ cl c0 g, Step.c CSlot.JAVA_LANG_ERROR cl ∈ cacheSteps ∧
        envA.findClass cl = some c0 ∧ envA.newGlobalRef c0 = some g ∧
        ((cache_methods envA initialCache).1).refs CSlot.JAVA_LANG_ERROR = some g) :=
  ⟨class_refs_durable_global.1 envA ("java/lang/Error") (some ⟨0⟩) rfl,
   class_refs_durable_global.2 envA ((cache_methods envA initialCache).1) () rfl
     CSlot.JAVA_LANG_ERROR⟩

/-- C10: in every reachable state of the concurrent model whose guard
reports done, every accessor passes the guard check and its unchecked
unwrap succeeds — the unwrap error branch is unreachable after the
guard check passes. -/
theorem guard_done_unwrap_never_fails (env : JNIEnv) {n : Nat} (s : Sys n)
    (h : SysReach env s) (hd : s.once = .done) : accessorsOk (toProc s) := by
  have hin := sysInv_reach env s h
  have hpop : populatedC s.cache :=
    cache_methods_ok_populated env initialCache s.cache () (hin.2.2.1 hd).2.1
  have hdb : s.once.isDone = true := by rw [hd]; rfl
  exact accessorsOk_of_populated (toProc s) hdb hpop

/-- C10 witness: all accessors succeed on the final state of the
concrete trace. -/
theorem guard_done_unwrap_never_fails_witness :
    accessorsOk (toProc sysFinA) :=
  guard_done_unwrap_never_fails envA sysFinA reach_sysFinA rfl
